import Mathlib

/-!
Shallow embedding of `src/main.rs` of the `statusbar` repository.

The program samples battery capacity, power draw, AC state, memory
pressure, CPU load and network addresses in a collector thread,
publishes each sample on a dedicated mpsc channel, and a renderer
thread polls every channel once per tick with `try_recv`, keeps the
last received value per metric in local variables (the snapshot) and
formats one status line.

File reads are modelled as `Option String` (the file content, or
`none` when the read fails).  Machine integers (`u64`, `u8`) are
modelled as `Nat` with explicit `% 2^64` where Rust release-mode
wrapping can occur.  The floating-point CPU and wattage display
conversions are outside the embedding; the wattage channel is modelled
in its native microwatt unit (a `u64` sum) since the claims only
concern whether and what the collector publishes.
-/

/-- Rust `char::is_ascii_whitespace`: space, tab, newline, carriage
return and form feed.  Used by `split_ascii_whitespace`. -/
def isAsciiWs (c : Char) : Bool :=
  c = ' ' || c = '\t' || c = '\n' || c = '\r' || c = '\x0C'

/-- Whitespace recognised by Rust `str::trim` restricted to the ASCII
range actually occurring in `/sys` and `/proc` file contents. -/
def isTrimWs (c : Char) : Bool :=
  c = ' ' || c = '\t' || c = '\n' || c = '\r'

/-- Rust `str::trim` on the character list of a string. -/
def trimWs (cs : List Char) : List Char :=
  ((cs.dropWhile isTrimWs).reverse.dropWhile isTrimWs).reverse

/-- Split a character list at every character satisfying `p`, keeping
empty segments (the behaviour of splitting on a separator). -/
def splitOnPred (p : Char → Bool) : List Char → List (List Char)
  | [] => [[]]
  | c :: cs =>
    let r := splitOnPred p cs
    if p c then [] :: r
    else
      match r with
      | [] => [[c]]
      | s :: ss => (c :: s) :: ss

/-- Rust `str::split_ascii_whitespace` on one line: split on ASCII
whitespace and drop the empty segments. -/
def tokenizeLine (l : List Char) : List (List Char) :=
  (splitOnPred isAsciiWs l).filter (fun t => !t.isEmpty)

/-- Rust `str::parse::<uN>()` for an unsigned type with exclusive
upper bound `bound`: an optional leading `+`, then one or more ASCII
digits, and the value must fit below the bound. -/
def parseNatStrict (bound : Nat) (cs : List Char) : Option Nat :=
  let ds := match cs with
    | '+' :: rest => rest
    | other => other
  if ds.isEmpty then none
  else if ds.all Char.isDigit then
    let v := ds.foldl (fun a c => a * 10 + (c.toNat - 48)) 0
    if v < bound then some v else none
  else none

/-- Rust `str::parse::<u64>()`. -/
def parseU64 (cs : List Char) : Option Nat :=
  parseNatStrict (2 ^ 64) cs

/-- Rust `str::parse::<u8>()`. -/
def parseU8 (cs : List Char) : Option Nat :=
  parseNatStrict (2 ^ 8) cs

/-- `read_battery_capacity`: read the file and trim the content;
`none` when the read fails. -/
def read_battery_capacity (content : Option String) : Option String :=
  content.map (fun s => String.mk (trimWs s.data))

/-- `read_power_uw`: read the file, trim, and parse a `u64` microwatt
value; `none` on read or parse failure. -/
def read_power_uw (content : Option String) : Option Nat :=
  content.bind (fun s => parseU64 (trimWs s.data))

/-- The token lists of each line of a file content, as produced by
`meminfo.lines()` followed by `split_ascii_whitespace` per line. -/
def memLines (content : String) : List (List (List Char)) :=
  (splitOnPred (fun c => c = '\n') content.data).map tokenizeLine

/-- The scanning loop of `get_memory_usage_percent`: walk the lines,
record the parse of the token after `MemTotal:` respectively
`MemAvailable:` (overwriting, and resetting to `none` on a failed
parse, exactly like `parts[1].parse::<u64>().ok()`), and stop as soon
as both are present.  Lines with fewer than two tokens are skipped. -/
def scanMeminfo : List (List (List Char)) → Option Nat → Option Nat →
    Option Nat × Option Nat
  | [], t, a => (t, a)
  | parts :: rest, t, a =>
    match parts with
    | p0 :: p1 :: _ =>
      let t2 := if p0 = "MemTotal:".data then parseU64 p1 else t
      let a2 := if p0 = "MemAvailable:".data then parseU64 p1 else a
      if t2.isSome && a2.isSome then (t2, a2) else scanMeminfo rest t2 a2
    | _ => scanMeminfo rest t a

/-- The arithmetic of `get_memory_usage_percent`:
`((total - available) * 100) / total` on `u64`, with release-mode
wrapping subtraction and multiplication made explicit as `% 2^64`
(both operands are parse results and hence below `2^64`). -/
def memPercentRaw (total available : Nat) : Nat :=
  ((total + 2 ^ 64 - available) % 2 ^ 64 * 100) % 2 ^ 64 / total

/-- `get_memory_usage_percent`: parse `/proc/meminfo` content and
compute the used-memory percentage; `none` when the read failed or
either field is missing or unparseable. -/
def get_memory_usage_percent (content : Option String) : Option Nat :=
  match content with
  | none => none
  | some c =>
    match scanMeminfo (memLines c) none none with
    | (some total, some available) => some (memPercentRaw total available)
    | _ => none

/-- `get_ac_online_status`: read the file, trim, parse a `u8` and
compare with the online code `1`; any failure yields `false`. -/
def get_ac_online_status (content : Option String) : Bool :=
  match content with
  | none => false
  | some s =>
    match parseU8 (trimWs s.data) with
    | some v => v == 1
    | none => false

/-- IP addresses as enumerated by `list_afinet_netifas`: an interface
carries either an IPv4 or an IPv6 address; the address text is the
`to_string` rendering used for de-duplication and display. -/
inductive IpAddr where
  | v4 (addr : String)
  | v6 (addr : String)
deriving DecidableEq

/-- The `matches!(ip, IpAddr::V4(_))` test of `format_ip_addresses`. -/
def isV4 : IpAddr → Bool
  | .v4 _ => true
  | .v6 _ => false

/-- `ip.to_string()`. -/
def addrOf : IpAddr → String
  | .v4 a => a
  | .v6 a => a

/-- The filtered `(name, address-string)` pairs iterated by the loop of
`format_ip_addresses`: interface name in the caller-supplied allow-list
and an IPv4 address. -/
def ipPairs (interfaces : List String) (netifas : List (String × IpAddr)) :
    List (String × String) :=
  (netifas.filter (fun p => interfaces.contains p.1 && isV4 p.2)).map
    (fun p => (p.1, addrOf p.2))

/-- The de-duplicating push loop of `format_ip_addresses`: a pair is
appended only when no already-kept pair has the same address string. -/
def dedupIps : List (String × String) → List (String × String) →
    List (String × String)
  | acc, [] => acc
  | acc, p :: rest =>
    if acc.any (fun q => q.2 == p.2) then dedupIps acc rest
    else dedupIps (acc ++ [p]) rest

/-- The `ip_addresses` vector built by `format_ip_addresses`. -/
def collectIps (interfaces : List String) (netifas : List (String × IpAddr)) :
    List (String × String) :=
  dedupIps [] (ipPairs interfaces netifas)

/-- One rendered entry: the address, followed by the bracketed SSID
when `get_wifi_ssid` reports one for the interface.  The SSID query
(a netlink call) is passed in as an oracle. -/
def renderIpEntry (ssid : String → Option String) (e : String × String) :
    String :=
  e.2 ++ (match ssid e.1 with
    | some s => "[" ++ s ++ "]"
    | none => "")

/-- `format_ip_addresses`: the bracketed, comma-separated list of kept
entries (the per-index separator logic of the loop is exactly
`String.intercalate ", "`). -/
def format_ip_addresses (interfaces : List String)
    (netifas : List (String × IpAddr)) (ssid : String → Option String) :
    String :=
  "[" ++ String.intercalate ", "
    ((collectIps interfaces netifas).map (renderIpEntry ssid)) ++ "]"

/-- `format_battery_status`: empty string when both battery strings are
empty, otherwise the ` bat [..],` segment listing the non-empty ones. -/
def format_battery_status (bat0 bat1 : String) : String :=
  let levels := (if bat0 = "" then [] else [bat0 ++ "%"]) ++
    (if bat1 = "" then [] else [bat1 ++ "%"])
  match levels with
  | [] => ""
  | _ => " bat [" ++ String.intercalate ", " levels ++ "],"

/-- Rust `{:02}` formatting of a `u64`: decimal digits, left-padded
with zeros to width two. -/
def pad2 (n : Nat) : String :=
  let s := Nat.repr n
  if s.length < 2 then "0" ++ s else s

/-- The `ac_indicator` of the renderer loop. -/
def acIndicator (acOnline : Bool) : String :=
  if acOnline then " [AC]" else ""

/-- The `write!` format of the renderer.  The CPU and wattage fields
are `f32`/`f64` values whose `{:02}` / `{:.1}` renderings are floating
point and are therefore taken as already-formatted strings. -/
def statusLine (host user cpuStr : String) (mem : Nat)
    (addrs bat0 bat1 : String) (wattStr : String) (acOnline : Bool)
    (time : String) : String :=
  "[" ++ host ++ "][" ++ user ++ "] => cpu " ++ cpuStr ++ "%, mem " ++
    pad2 mem ++ "%, net " ++ addrs ++ "," ++
    format_battery_status bat0 bat1 ++ " pwr " ++ wattStr ++ "W" ++
    acIndicator acOnline ++ ", " ++ time

/-- The startup capability probe: one immutable flag per optional
resource (`Path::exists` on the five `/sys` paths). -/
structure Caps where
  battery00 : Bool
  battery01 : Bool
  bat0Power : Bool
  bat1Power : Bool
  acOnline : Bool
deriving DecidableEq

/-- The outcome of this tick's file reads: the raw content of each
probed file, or `none` when the read fails. -/
structure Reads where
  bat0 : Option String
  bat1 : Option String
  bat0Power : Option String
  bat1Power : Option String
  ac : Option String
  meminfo : Option String
deriving DecidableEq

/-- The AC sample computed by one collector tick:
`if ac_online_enable { get_ac_online_status(AC_ONLINE_PATH) } else { false }`. -/
def acSample (enabled : Bool) (content : Option String) : Bool :=
  if enabled then get_ac_online_status content else false

/-- What the collector sends on each modelled channel during one tick:
`none` means no message for that channel this tick. -/
structure TickSends where
  bat0 : Option String
  bat1 : Option String
  wattage : Option Nat
  ac : Option Bool
  mem : Option Nat
deriving DecidableEq

/-- One collector tick (loop body of the first spawned thread,
restricted to the flag-gated and memory metrics): batteries send only
when enabled and the read succeeds; the wattage total (in microwatts,
failed or disabled sensors contributing zero, the `+=` wrapping made
explicit) and the AC status are sent unconditionally; memory is sent
only when `get_memory_usage_percent` succeeds.  The CPU and IP
channels carry no capability flag and are not needed by the claims. -/
def collectorSends (caps : Caps) (r : Reads) : TickSends where
  bat0 := if caps.battery00 then read_battery_capacity r.bat0 else none
  bat1 := if caps.battery01 then read_battery_capacity r.bat1 else none
  wattage := some
    (((if caps.bat0Power then (read_power_uw r.bat0Power).getD 0 else 0) +
      (if caps.bat1Power then (read_power_uw r.bat1Power).getD 0 else 0)) %
      2 ^ 64)
  ac := some (acSample caps.acOnline r.ac)
  mem := get_memory_usage_percent r.meminfo

/-- The renderer's local snapshot variables, with their declared
initial values `String::new()`, `0`, `false`. -/
structure Snapshot where
  bat0 : String
  bat1 : String
  wattage : Nat
  ac : Bool
  mem : Nat
deriving DecidableEq

/-- The seeded snapshot (`last_bat0`, …, `last_mem_usage` initial
values). -/
def initSnapshot : Snapshot :=
  { bat0 := "", bat1 := "", wattage := 0, ac := false, mem := 0 }

/-- Whole-system state: one FIFO queue per modelled channel plus the
renderer snapshot. -/
structure SysState where
  bat0Q : List String
  bat1Q : List String
  wattQ : List Nat
  acQ : List Bool
  memQ : List Nat
  snap : Snapshot
deriving DecidableEq

/-- All channels empty, snapshot seeded. -/
def initState : SysState :=
  { bat0Q := [], bat1Q := [], wattQ := [], acQ := [], memQ := [],
    snap := initSnapshot }

/-- Enqueue an optional message (a `send` that happened or not). -/
def enqueueOpt {α : Type} (q : List α) : Option α → List α
  | none => q
  | some v => q ++ [v]

/-- Apply one collector tick to the system state: enqueue every sent
message; the snapshot is untouched (it is owned by the renderer). -/
def collectorStep (caps : Caps) (r : Reads) (s : SysState) : SysState where
  bat0Q := enqueueOpt s.bat0Q (collectorSends caps r).bat0
  bat1Q := enqueueOpt s.bat1Q (collectorSends caps r).bat1
  wattQ := enqueueOpt s.wattQ (collectorSends caps r).wattage
  acQ := enqueueOpt s.acQ (collectorSends caps r).ac
  memQ := enqueueOpt s.memQ (collectorSends caps r).mem
  snap := s.snap

/-- One non-blocking `try_recv`: pop the oldest pending message if any,
else keep the last value. -/
def tryRecvField {α : Type} (last : α) (q : List α) : α × List α :=
  match q with
  | [] => (last, [])
  | v :: rest => (v, rest)

/-- The battery receives of the renderer:
`if let Ok(v) = rx.try_recv() && enable { last = v }` — the message is
consumed from the channel even when the flag is false; the snapshot is
updated only when the flag is true. -/
def tryRecvGuarded (enabled : Bool) (last : String) (q : List String) :
    String × List String :=
  match q with
  | [] => (last, [])
  | v :: rest => (if enabled then v else last, rest)

/-- One renderer tick (loop body of the second spawned thread,
restricted to the modelled channels): one non-blocking receive per
channel, guarded by the capability flag for the two batteries and
unguarded for wattage, AC and memory. -/
def rendererStep (caps : Caps) (s : SysState) : SysState where
  bat0Q := (tryRecvGuarded caps.battery00 s.snap.bat0 s.bat0Q).2
  bat1Q := (tryRecvGuarded caps.battery01 s.snap.bat1 s.bat1Q).2
  wattQ := (tryRecvField s.snap.wattage s.wattQ).2
  acQ := (tryRecvField s.snap.ac s.acQ).2
  memQ := (tryRecvField s.snap.mem s.memQ).2
  snap :=
    { bat0 := (tryRecvGuarded caps.battery00 s.snap.bat0 s.bat0Q).1
      bat1 := (tryRecvGuarded caps.battery01 s.snap.bat1 s.bat1Q).1
      wattage := (tryRecvField s.snap.wattage s.wattQ).1
      ac := (tryRecvField s.snap.ac s.acQ).1
      mem := (tryRecvField s.snap.mem s.memQ).1 }

/-- An interleaving event: one collector tick (with that tick's read
outcomes) or one renderer tick. -/
inductive Event where
  | collect (r : Reads)
  | render

/-- Apply one event. -/
def step (caps : Caps) (s : SysState) : Event → SysState
  | .collect r => collectorStep caps r s
  | .render => rendererStep caps s

/-- Run an arbitrary interleaving of collector and renderer ticks. -/
def run (caps : Caps) (s : SysState) : List Event → SysState
  | [] => s
  | ev :: evs => run caps (step caps s ev) evs

/-- `n` successive renderer ticks observing a single channel. -/
def renderTicks {α : Type} : Nat → α → List α → α × List α
  | 0, last, q => (last, q)
  | n + 1, last, q =>
    let pr := tryRecvField last q
    renderTicks n pr.1 pr.2

/-- The retry-until-success loops of `main` (`get_current_pid` and
`System::host_name`), fuel-indexed: attempt, and on failure retry with
the next attempt's outcome. -/
def retryLoop {α : Type} : (Nat → Option α) → Nat → Option α
  | _, 0 => none
  | oracle, fuel + 1 =>
    match oracle 0 with
    | some v => some v
    | none => retryLoop (fun n => oracle (n + 1)) fuel

/-- The username computation of `main`: the `--username` override if
given; otherwise a single lookup of the current process
(`none` = process not found, `some none` = process has no user id),
then of its user id in the user list — every failure branch yields the
empty string, with no retry. -/
def resolveUsername (argUsername : Option String)
    (processUser : Option (Option Nat)) (users : List (Nat × String)) :
    String :=
  match argUsername with
  | some u => u
  | none =>
    match processUser with
    | some (some uid) =>
      match users.find? (fun u => u.1 == uid) with
      | some u => u.2
      | none => ""
    | some none => ""
    | none => ""

/-- A substring test (for stating what a rendered line shows):
`startsWithList n h` is true when `n` is an initial segment of `h`. -/
def startsWithList : List Char → List Char → Bool
  | [], _ => true
  | _ :: _, [] => false
  | a :: as, b :: bs => a == b && startsWithList as bs

/-- `hasSubList n h`: `n` occurs contiguously somewhere in `h`. -/
def hasSubList (needle : List Char) : List Char → Bool
  | [] => needle.isEmpty
  | c :: cs => startsWithList needle (c :: cs) || hasSubList needle cs

/-- Substring test on strings. -/
def strHasSub (needle hay : String) : Bool :=
  hasSubList needle.data hay.data

/-! ### Shared concrete values used by witnesses and counterexamples -/

/-- No optional resource present. -/
def capsNone : Caps := ⟨false, false, false, false, false⟩

/-- Every optional resource present. -/
def capsAll : Caps := ⟨true, true, true, true, true⟩

/-- Only the second power sensor present. -/
def capsPower1 : Caps := ⟨false, false, false, true, false⟩

/-- Every read fails this tick. -/
def rEmpty : Reads := ⟨none, none, none, none, none, none⟩

/-- A tick whose meminfo read succeeds at 42 % usage. -/
def rMem42 : Reads :=
  { rEmpty with meminfo := some "MemTotal: 100 kB\nMemAvailable: 58 kB" }

/-- A tick whose AC read reports the online code. -/
def rAc1 : Reads := { rEmpty with ac := some "1\n" }

/-- A tick whose second power sensor reads five watts. -/
def rPow1 : Reads := { rEmpty with bat1Power := some "5000000\n" }

/-! ### Helper lemmas -/

/-- A guarded receive with a false flag never changes the last value. -/
lemma tryRecvGuarded_false_fst (last : String) (q : List String) :
    (tryRecvGuarded false last q).1 = last := by
  cases q <;> simp [tryRecvGuarded]

/-- With battery 0 disabled the collector never feeds `bat0Q` and the
renderer guard keeps `last_bat0`, so the field is stable under any
interleaving. -/
lemma run_bat0_default (caps : Caps) (h : caps.battery00 = false) :
    ∀ (evs : List Event) (s : SysState), s.snap.bat0 = "" →
      (run caps s evs).snap.bat0 = "" := by
  intro evs
  induction evs with
  | nil => intro s hs; exact hs
  | cons ev evs ih =>
    intro s hs
    cases ev with
    | collect r => exact ih _ (by simpa [run, step, collectorStep] using hs)
    | render =>
      exact ih _ (by simpa [run, step, rendererStep, h,
        tryRecvGuarded_false_fst] using hs)

/-- Battery 1 version of `run_bat0_default`. -/
lemma run_bat1_default (caps : Caps) (h : caps.battery01 = false) :
    ∀ (evs : List Event) (s : SysState), s.snap.bat1 = "" →
      (run caps s evs).snap.bat1 = "" := by
  intro evs
  induction evs with
  | nil => intro s hs; exact hs
  | cons ev evs ih =>
    intro s hs
    cases ev with
    | collect r => exact ih _ (by simpa [run, step, collectorStep] using hs)
    | render =>
      exact ih _ (by simpa [run, step, rendererStep, h,
        tryRecvGuarded_false_fst] using hs)

/-- With both power sensors disabled every published wattage sample is
zero, so the snapshot field and every queued message stay zero. -/
lemma run_watt_default (caps : Caps) (h0 : caps.bat0Power = false)
    (h1 : caps.bat1Power = false) :
    ∀ (evs : List Event) (s : SysState), s.snap.wattage = 0 →
      (∀ v ∈ s.wattQ, v = 0) →
      (run caps s evs).snap.wattage = 0 ∧
        ∀ v ∈ (run caps s evs).wattQ, v = 0 := by
  intro evs
  induction evs with
  | nil => intro s hs hq; exact ⟨hs, hq⟩
  | cons ev evs ih =>
    intro s hs hq
    cases ev with
    | collect r =>
      apply ih
      · simpa [run, step, collectorStep] using hs
      · intro v hv
        simp only [run, step, collectorStep, collectorSends, h0, h1,
          if_false, enqueueOpt] at hv
        rcases List.mem_append.mp hv with hv | hv
        · exact hq v hv
        · simpa using hv
    | render =>
      cases hqq : s.wattQ with
      | nil =>
        apply ih
        · simpa [run, step, rendererStep, tryRecvField, hqq] using hs
        · intro v hv
          simp [run, step, rendererStep, tryRecvField, hqq] at hv
      | cons w rest =>
        have hw : w = 0 := hq w (by simp [hqq])
        apply ih
        · simp [run, step, rendererStep, tryRecvField, hqq, hw]
        · intro v hv
          simp only [run, step, rendererStep, tryRecvField, hqq] at hv
          exact hq v (by simp [hqq, hv])

/-- With the AC sensor disabled every published AC sample is `false`,
so the snapshot field and every queued message stay `false`. -/
lemma run_ac_default (caps : Caps) (h : caps.acOnline = false) :
    ∀ (evs : List Event) (s : SysState), s.snap.ac = false →
      (∀ v ∈ s.acQ, v = false) →
      (run caps s evs).snap.ac = false ∧
        ∀ v ∈ (run caps s evs).acQ, v = false := by
  intro evs
  induction evs with
  | nil => intro s hs hq; exact ⟨hs, hq⟩
  | cons ev evs ih =>
    intro s hs hq
    cases ev with
    | collect r =>
      apply ih
      · simpa [run, step, collectorStep] using hs
      · intro v hv
        simp only [run, step, collectorStep, collectorSends, h, if_false,
          enqueueOpt] at hv
        rcases List.mem_append.mp hv with hv | hv
        · exact hq v hv
        · simpa using hv
    | render =>
      cases hqq : s.acQ with
      | nil =>
        apply ih
        · simpa [run, step, rendererStep, tryRecvField, hqq] using hs
        · intro v hv
          simp [run, step, rendererStep, tryRecvField, hqq] at hv
      | cons w rest =>
        have hw : w = false := hq w (by simp [hqq])
        apply ih
        · simp [run, step, rendererStep, tryRecvField, hqq, hw]
        · intro v hv
          simp only [run, step, rendererStep, tryRecvField, hqq] at hv
          exact hq v (by simp [hqq, hv])

/-- The fuel-indexed retry loop returns the first successful attempt
(once given enough fuel): retry-until-success semantics. -/
lemma retryLoop_first_success {α : Type} :
    ∀ (k : Nat) (oracle : Nat → Option α) (v : α),
      (∀ m, m < k → oracle m = none) → oracle k = some v →
      ∀ fuel, k < fuel → retryLoop oracle fuel = some v := by
  intro k
  induction k with
  | zero =>
    intro oracle v _ hk fuel hf
    cases fuel with
    | zero => omega
    | succ f => simp [retryLoop, hk]
  | succ k ih =>
    intro oracle v h1 hk fuel hf
    cases fuel with
    | zero => omega
    | succ f =>
      have h0 : oracle 0 = none := h1 0 (Nat.succ_pos k)
      simp only [retryLoop, h0]
      exact ih (fun n => oracle (n + 1)) v
        (fun m hm => h1 (m + 1) (by omega)) hk f (by omega)

/-- An address already kept, restated as membership in the mapped
accumulator. -/
lemma any_snd_iff (acc : List (String × String)) (a : String) :
    acc.any (fun q => q.2 == a) = true ↔ a ∈ acc.map Prod.snd := by
  simp only [List.any_eq_true, beq_iff_eq, List.mem_map]

/-- The de-duplication loop keeps the address column duplicate-free. -/
lemma dedup_snd_nodup :
    ∀ (xs acc : List (String × String)), (acc.map Prod.snd).Nodup →
      ((dedupIps acc xs).map Prod.snd).Nodup := by
  intro xs
  induction xs with
  | nil => intro acc h; simpa [dedupIps] using h
  | cons p rest ih =>
    intro acc h
    by_cases hc : acc.any (fun q => q.2 == p.2) = true
    · rw [dedupIps, if_pos hc]; exact ih acc h
    · rw [dedupIps, if_neg hc]
      apply ih
      have hnot : p.2 ∉ acc.map Prod.snd := fun hmem =>
        hc ((any_snd_iff acc p.2).mpr hmem)
      simp [List.nodup_append, h, hnot]

/-- The addresses kept by the loop are exactly those of the
accumulator and of the remaining input. -/
lemma dedup_mem_snd :
    ∀ (xs acc : List (String × String)) (a : String),
      a ∈ (dedupIps acc xs).map Prod.snd ↔
        a ∈ acc.map Prod.snd ∨ a ∈ xs.map Prod.snd := by
  intro xs
  induction xs with
  | nil => intro acc a; simp [dedupIps]
  | cons p rest ih =>
    intro acc a
    by_cases hc : acc.any (fun q => q.2 == p.2) = true
    · have hp : p.2 ∈ acc.map Prod.snd := (any_snd_iff acc p.2).mp hc
      rw [dedupIps, if_pos hc, ih]
      simp only [List.map_cons, List.mem_cons]
      constructor
      · rintro (h | h)
        · exact Or.inl h
        · exact Or.inr (Or.inr h)
      · rintro (h | h | h)
        · exact Or.inl h
        · exact Or.inl (h ▸ hp)
        · exact Or.inr h
    · rw [dedupIps, if_neg hc, ih]
      simp only [List.map_append, List.mem_append, List.map_cons,
        List.mem_cons, List.map_nil, List.mem_singleton]
      tauto

/-- The loop output is the accumulator followed by a subsequence of
the input: insertion order is preserved. -/
lemma dedup_sublist :
    ∀ (xs acc : List (String × String)),
      ∃ ys, dedupIps acc xs = acc ++ ys ∧ ys.Sublist xs := by
  intro xs
  induction xs with
  | nil => intro acc; exact ⟨[], by simp [dedupIps], List.nil_sublist _⟩
  | cons p rest ih =>
    intro acc
    by_cases hc : acc.any (fun q => q.2 == p.2) = true
    · obtain ⟨ys, h1, h2⟩ := ih acc
      exact ⟨ys, by rw [dedupIps, if_pos hc]; exact h1, h2.cons p⟩
    · obtain ⟨ys, h1, h2⟩ := ih (acc ++ [p])
      refine ⟨p :: ys, ?_, h2.cons₂ p⟩
      rw [dedupIps, if_neg hc, h1]
      simp

/-- For an address already present in the accumulator, the loop's
output holds exactly the accumulator's pairs with that address: a
later input pair with a duplicate address is never kept. -/
lemma dedup_mem_of_mem_snd :
    ∀ (xs acc : List (String × String)) (n a : String),
      a ∈ acc.map Prod.snd →
      ((n, a) ∈ dedupIps acc xs ↔ (n, a) ∈ acc) := by
  intro xs
  induction xs with
  | nil => intro acc n a _; simp [dedupIps]
  | cons p rest ih =>
    intro acc n a h
    by_cases hc : acc.any (fun q => q.2 == p.2) = true
    · rw [dedupIps, if_pos hc]; exact ih acc n a h
    · have hpa : p.2 ≠ a := fun he =>
        hc ((any_snd_iff acc p.2).mpr (he ▸ h))
      rw [dedupIps, if_neg hc, ih (acc ++ [p]) n a (by simp [h])]
      simp only [List.mem_append, List.mem_singleton]
      constructor
      · rintro (h2 | h2)
        · exact h2
        · exact absurd (congrArg Prod.snd h2.symm) hpa
      · exact fun h2 => Or.inl h2

/-- First occurrence wins: a kept pair whose address is not already in
the accumulator is the first input pair carrying that address. -/
lemma dedup_find_first :
    ∀ (xs acc : List (String × String)) (n a : String),
      a ∉ acc.map Prod.snd →
      ((n, a) ∈ dedupIps acc xs ↔
        xs.find? (fun q => q.2 == a) = some (n, a)) := by
  intro xs
  induction xs with
  | nil =>
    intro acc n a h
    simp only [dedupIps, List.find?_nil]
    constructor
    · intro hm
      exact absurd (List.mem_map_of_mem Prod.snd hm) h
    · intro hm; cases hm
  | cons p rest ih =>
    intro acc n a h
    by_cases hc : acc.any (fun q => q.2 == p.2) = true
    · have hpa : p.2 ≠ a := fun he =>
        h (he ▸ (any_snd_iff acc p.2).mp hc)
      rw [dedupIps, if_pos hc, ih acc n a h,
        List.find?_cons_of_neg _ (by simpa using hpa)]
    · by_cases hpa : p.2 = a
      · rw [dedupIps, if_neg hc,
          dedup_mem_of_mem_snd rest (acc ++ [p]) n a (by simp [hpa]),
          List.find?_cons_of_pos _ (by simpa using hpa)]
        simp only [List.mem_append, List.mem_singleton,
          Option.some.injEq]
        constructor
        · rintro (h2 | h2)
          · exact absurd (List.mem_map_of_mem Prod.snd h2) h
          · exact h2.symm
        · intro h2; exact Or.inr h2.symm
      · rw [dedupIps, if_neg hc,
          ih (acc ++ [p]) n a (by
            simp only [List.map_append, List.mem_append, List.map_cons,
              List.map_nil, List.mem_singleton]
            rintro (h2 | h2)
            · exact h h2
            · exact hpa h2.symm),
          List.find?_cons_of_neg _ (by simpa using hpa)]

/-! ### Claims -/

/-- Claim C1, amended: on each tick the renderer performs exactly one
non-blocking receive per metric channel — it takes the oldest pending
message, or keeps the last value when the channel is empty, and never
blocks; a backlog of pending samples is absorbed one per tick, so
after N renderer ticks starting from N queued samples the snapshot
holds the Nth (most recent) sample and the channel is empty. -/
theorem c1_theorem : ∀ (α : Type) (last v : α) (q : List α) (caps : Caps)
    (s : SysState),
    tryRecvField last ([] : List α) = (last, []) ∧
    tryRecvField last (v :: q) = (v, q) ∧
    renderTicks (q ++ [v]).length last (q ++ [v]) = (v, []) ∧
    (rendererStep caps s).snap.mem = (tryRecvField s.snap.mem s.memQ).1 := by
  intro α last v q caps s
  refine ⟨rfl, rfl, ?_, rfl⟩
  induction q generalizing last with
  | nil => rfl
  | cons w q ih => simpa [renderTicks, tryRecvField] using ih w

/-- Claim C1 counterexample: with two samples pending on the memory
channel, a single renderer tick leaves the snapshot at the first
(oldest) sample, not the most recent one, and the channel still holds
the second message — pending messages are not all drained. -/
theorem c1_counterexample :
    (rendererStep capsNone { initState with memQ := [1, 2] }).snap.mem = 1 ∧
    (rendererStep capsNone { initState with memQ := [1, 2] }).snap.mem ≠ 2 ∧
    (rendererStep capsNone { initState with memQ := [1, 2] }).memQ = [2] := by
  refine ⟨rfl, by decide, rfl⟩

/-- Claim C2, amended: on a collector tick, a disabled battery metric
is neither probed (the tick's output is independent of that read's
outcome) nor sent; a disabled power sensor or AC sensor is likewise
never probed, but the collector still sends a message every tick on
the wattage channel (disabled sensors contributing zero) and on the AC
channel (`false` when the sensor is disabled). -/
theorem c2_theorem : ∀ (caps : Caps) (r : Reads) (c c' : Option String),
    (caps.battery00 = false → (collectorSends caps r).bat0 = none ∧
      collectorSends caps { r with bat0 := c } =
        collectorSends caps { r with bat0 := c' }) ∧
    (caps.battery01 = false → (collectorSends caps r).bat1 = none ∧
      collectorSends caps { r with bat1 := c } =
        collectorSends caps { r with bat1 := c' }) ∧
    (caps.bat0Power = false →
      collectorSends caps { r with bat0Power := c } =
        collectorSends caps { r with bat0Power := c' }) ∧
    (caps.bat1Power = false →
      collectorSends caps { r with bat1Power := c } =
        collectorSends caps { r with bat1Power := c' }) ∧
    (caps.acOnline = false → (collectorSends caps r).ac = some false ∧
      collectorSends caps { r with ac := c } =
        collectorSends caps { r with ac := c' }) ∧
    ((collectorSends caps r).wattage).isSome = true ∧
    ((collectorSends caps r).ac).isSome = true := by
  intro caps r c c'
  refine ⟨fun h => ⟨?_, ?_⟩, fun h => ⟨?_, ?_⟩, fun h => ?_, fun h => ?_,
    fun h => ⟨?_, ?_⟩, rfl, rfl⟩ <;> simp [collectorSends, acSample, h]

/-- Witness for claim C2's theorem at a concrete input. -/
theorem c2_witness :
    (collectorSends capsNone rEmpty).bat0 = none ∧
    (collectorSends capsNone rEmpty).ac = some false ∧
    collectorSends capsNone { rEmpty with ac := some "1" } =
      collectorSends capsNone { rEmpty with ac := none } := by
  have h := c2_theorem capsNone rEmpty (some "1") none
  exact ⟨(h.1 rfl).1, (h.2.2.2.2.1 rfl).1, (h.2.2.2.2.1 rfl).2⟩

/-- Claim C2 counterexample: with every capability flag false, a
collector tick still sends a message on the AC channel (and on the
wattage channel), so a disabled metric is not free of channel
traffic. -/
theorem c2_counterexample :
    (collectorSends capsNone rEmpty).ac = some false ∧
    (collectorSends capsNone rEmpty).ac ≠ none ∧
    (collectorSends capsNone rEmpty).wattage = some 0 ∧
    (run capsNone initState [Event.collect rEmpty]).acQ = [false] := by
  refine ⟨rfl, by decide, by decide, by decide⟩

/-- Claim C3, amended: under any interleaving of collector and
renderer ticks, the snapshot field of a disabled battery keeps its
default `""`, the AC field keeps its default `false` when the AC
sensor is disabled, and the wattage field keeps its default `0` when
both power-sensor flags are false (the wattage field is shared by the
two power flags, so a single false flag does not freeze it). -/
theorem c3_theorem : ∀ (caps : Caps) (evs : List Event),
    (caps.battery00 = false → (run caps initState evs).snap.bat0 = "") ∧
    (caps.battery01 = false → (run caps initState evs).snap.bat1 = "") ∧
    (caps.bat0Power = false → caps.bat1Power = false →
      (run caps initState evs).snap.wattage = 0) ∧
    (caps.acOnline = false → (run caps initState evs).snap.ac = false) := by
  intro caps evs
  refine ⟨fun h => run_bat0_default caps h evs initState rfl,
    fun h => run_bat1_default caps h evs initState rfl,
    fun h0 h1 => (run_watt_default caps h0 h1 evs initState rfl
      (by simp [initState])).1,
    fun h => (run_ac_default caps h evs initState rfl
      (by simp [initState])).1⟩

/-- Witness for claim C3's theorem at a concrete input. -/
theorem c3_witness :
    (run capsNone initState [Event.collect rAc1, Event.render]).snap.bat0
      = "" ∧
    (run capsNone initState [Event.collect rAc1, Event.render]).snap.wattage
      = 0 ∧
    (run capsNone initState [Event.collect rAc1, Event.render]).snap.ac
      = false := by
  have h := c3_theorem capsNone [Event.collect rAc1, Event.render]
  exact ⟨h.1 rfl, h.2.2.1 rfl rfl, h.2.2.2 rfl⟩

/-- Claim C3 counterexample: the power-draw snapshot field is fed by
both power-sensor flags; with `BAT0` power absent (flag false) but
`BAT1` power present and reading five watts, the wattage field leaves
its default after one collector tick and one renderer tick, although a
metric's (power sensor 0's) capability flag is false. -/
theorem c3_counterexample :
    capsPower1.bat0Power = false ∧
    (run capsPower1 initState
      [Event.collect rPow1, Event.render]).snap.wattage = 5000000 ∧
    (run capsPower1 initState
      [Event.collect rPow1, Event.render]).snap.wattage ≠ 0 := by
  refine ⟨rfl, by decide, by decide⟩

/-- Claim C4, amended: on a tick whose read or parse fails, the
collector publishes nothing on the memory channel and nothing on an
enabled battery's channel, and the renderer keeps showing the last
known value (a 42 % reading followed by a failed read still renders
`mem 42%`); the wattage and AC channels are exceptions — they publish
every tick, a failed power read contributing zero and a failed AC read
publishing `false`. -/
theorem c4_theorem : ∀ (caps : Caps) (r : Reads),
    (get_memory_usage_percent r.meminfo = none →
      (collectorSends caps r).mem = none) ∧
    (caps.battery00 = true → r.bat0 = none →
      (collectorSends caps r).bat0 = none) ∧
    (caps.battery01 = true → r.bat1 = none →
      (collectorSends caps r).bat1 = none) ∧
    (run capsNone initState
      [Event.collect rMem42, Event.render, Event.collect rEmpty,
        Event.render]).snap.mem = 42 ∧
    strHasSub "mem 42%"
      (statusLine "host" "user" "00"
        (run capsNone initState
          [Event.collect rMem42, Event.render, Event.collect rEmpty,
            Event.render]).snap.mem
        "" "" "" "0.0" false "2026-01-01 00:00:00") = true := by
  intro caps r
  refine ⟨fun h => ?_, fun h h2 => ?_, fun h h2 => ?_, by decide, by decide⟩
  · simp [collectorSends, h]
  · simp [collectorSends, h, h2, read_battery_capacity]
  · simp [collectorSends, h, h2, read_battery_capacity]

/-- Witness for claim C4's theorem at a concrete input. -/
theorem c4_witness :
    (collectorSends capsAll rEmpty).mem = none ∧
    (collectorSends capsAll rEmpty).bat0 = none := by
  have h := c4_theorem capsAll rEmpty
  exact ⟨h.1 rfl, h.2.1 rfl rfl⟩

/-- Claim C4 counterexample: with the AC sensor enabled and its read
failing, the collector still publishes on the AC channel (`false`),
and the renderer's subsequent tick overwrites the last known value
`true` with `false` instead of retaining it. -/
theorem c4_counterexample :
    (collectorSends capsAll rEmpty).ac = some false ∧
    (collectorSends capsAll rEmpty).ac ≠ none ∧
    (run capsAll initState [Event.collect rAc1, Event.render]).snap.ac
      = true ∧
    (run capsAll initState
      [Event.collect rAc1, Event.render, Event.collect rEmpty,
        Event.render]).snap.ac = false := by
  refine ⟨by decide, by decide, by decide, by decide⟩

/-- Claim C5, amended: whenever `/proc/meminfo` yields parseable
`MemTotal` and `MemAvailable` values with `available ≤ total`,
`0 < total` and no `u64` overflow of `total * 100` (all true of real
meminfo data), the published sample equals
`(total - available) * 100 / total` in integer arithmetic and lies in
`[0, 100]`; without `available ≤ total` the `u64` subtraction wraps
and the bound fails. -/
theorem c5_theorem : ∀ (content : String) (t a : Nat),
    scanMeminfo (memLines content) none none = (some t, some a) →
    a ≤ t → 0 < t → t * 100 < 2 ^ 64 →
    get_memory_usage_percent (some content) = some ((t - a) * 100 / t) ∧
    (t - a) * 100 / t ≤ 100 := by
  intro content t a hscan hat ht hbound
  have hpow : (2 : Nat) ^ 64 = 18446744073709551616 := by norm_num
  have hsub : t + 2 ^ 64 - a = 2 ^ 64 + (t - a) := by omega
  have hsublt : t - a < 2 ^ 64 := by omega
  have hmul : (t - a) * 100 < 2 ^ 64 :=
    lt_of_le_of_lt (Nat.mul_le_mul_right 100 (Nat.sub_le t a)) hbound
  have hraw : memPercentRaw t a = (t - a) * 100 / t := by
    unfold memPercentRaw
    rw [hsub, Nat.add_mod_left, Nat.mod_eq_of_lt hsublt,
      Nat.mod_eq_of_lt hmul]
  constructor
  · simp [get_memory_usage_percent, hscan, hraw]
  · calc (t - a) * 100 / t ≤ t * 100 / t :=
        Nat.div_le_div_right (Nat.mul_le_mul_right 100 (Nat.sub_le t a))
    _ = 100 := Nat.mul_div_cancel_left 100 ht

/-- Witness for claim C5's theorem at a concrete input. -/
theorem c5_witness :
    get_memory_usage_percent
      (some "MemTotal: 8000 kB\nMemAvailable: 2000 kB") = some 75 ∧
    (75 : Nat) ≤ 100 := by
  have h := c5_theorem "MemTotal: 8000 kB\nMemAvailable: 2000 kB" 8000 2000
    (by decide) (by decide) (by decide) (by decide)
  refine ⟨?_, by decide⟩
  rw [h.1]

/-- Claim C5 counterexample: when `MemAvailable` exceeds `MemTotal`
(which real kernels can report), the wrapping `u64` subtraction drives
the published sample far above 100, refuting the unconditional
`[0, 100]` bound. -/
theorem c5_counterexample :
    get_memory_usage_percent
      (some "MemTotal: 100 kB\nMemAvailable: 200 kB")
      = some 184467440737095416 ∧
    ¬ (184467440737095416 : Nat) ≤ 100 := by
  exact ⟨by decide, by decide⟩

/-- Claim C7: the AC-status sample is `true` exactly when the AC
sensor capability is enabled and the sensor file parses to the online
code `1`; a disabled sensor or any read/parse failure yields `false`,
and with the sensor absent the rendered AC flag is the empty string on
every renderer tick of any interleaving, regardless of the actual
power state read. -/
theorem c7_theorem : ∀ (enabled : Bool) (content : Option String)
    (caps : Caps) (evs : List Event),
    (acSample enabled content = true ↔
      (enabled = true ∧ ∃ s, content = some s ∧
        parseU8 (trimWs s.data) = some 1)) ∧
    (caps.acOnline = false →
      acIndicator ((run caps initState evs).snap.ac) = "") := by
  intro enabled content caps evs
  constructor
  · cases enabled with
    | false => simp [acSample]
    | true =>
      cases content with
      | none => simp [acSample, get_ac_online_status]
      | some s =>
        cases hp : parseU8 (trimWs s.data) with
        | none => simp [acSample, get_ac_online_status, hp]
        | some v => simp [acSample, get_ac_online_status, hp]
  · intro h
    have hac := run_ac_default caps h evs initState rfl (by simp [initState])
    simp [acIndicator, hac.1]

/-- Witness for claim C7's theorem at a concrete input. -/
theorem c7_witness :
    acSample true (some "1\n") = true ∧
    acIndicator ((run capsNone initState
      [Event.collect rAc1, Event.render]).snap.ac) = "" := by
  have h := c7_theorem true (some "1\n") capsNone
    [Event.collect rAc1, Event.render]
  exact ⟨h.1.mpr ⟨rfl, "1\n", rfl, by decide⟩, h.2 rfl⟩

/-- Claim C8: the kept IP list is duplicate-free by address value,
contains exactly the IPv4 addresses of allow-listed interfaces, is a
subsequence of the filtered enumeration (insertion order preserved),
every kept pair is the first filtered occurrence of its address (first
occurrence wins), and the rendered string is the bracketed
comma-separated list of kept entries, each annotated with its SSID
when one is reported. -/
theorem c8_theorem : ∀ (interfaces : List String)
    (netifas : List (String × IpAddr)) (ssid : String → Option String),
    ((collectIps interfaces netifas).map Prod.snd).Nodup ∧
    (∀ a, a ∈ (collectIps interfaces netifas).map Prod.snd ↔
      ∃ name ip, (name, ip) ∈ netifas ∧ interfaces.contains name = true ∧
        isV4 ip = true ∧ addrOf ip = a) ∧
    (collectIps interfaces netifas).Sublist (ipPairs interfaces netifas) ∧
    (∀ n a, (n, a) ∈ collectIps interfaces netifas →
      (ipPairs interfaces netifas).find? (fun q => q.2 == a)
        = some (n, a)) ∧
    format_ip_addresses interfaces netifas ssid =
      "[" ++ String.intercalate ", "
        ((collectIps interfaces netifas).map (renderIpEntry ssid)) ++ "]" := by
  intro interfaces netifas ssid
  refine ⟨dedup_snd_nodup _ [] (by simp), ?_, ?_, ?_, rfl⟩
  · intro a
    rw [collectIps, dedup_mem_snd]
    simp only [List.map_nil, List.not_mem_nil, false_or, ipPairs,
      List.map_map, List.mem_map, List.mem_filter, Function.comp,
      Bool.and_eq_true]
    constructor
    · rintro ⟨⟨name, ip⟩, ⟨hmem, hcont, hv4⟩, ha⟩
      exact ⟨name, ip, hmem, hcont, hv4, ha⟩
    · rintro ⟨name, ip, hmem, hcont, hv4, ha⟩
      exact ⟨(name, ip), ⟨hmem, hcont, hv4⟩, ha⟩
  · obtain ⟨ys, h1, h2⟩ := dedup_sublist (ipPairs interfaces netifas) []
    rw [collectIps, h1]
    simpa using h2
  · intro n a hm
    exact (dedup_find_first _ [] n a (by simp)).mp hm

/-- Witness for claim C8's theorem at a concrete input: two interfaces
resolving to the same address — the first filtered occurrence is the
kept one. -/
theorem c8_witness :
    (ipPairs ["eth0", "wlan0"]
      [("eth0", IpAddr.v4 "10.0.0.1"), ("wlan0", IpAddr.v4 "10.0.0.1"),
        ("wlan0", IpAddr.v4 "10.0.0.2"), ("lo", IpAddr.v4 "127.0.0.1"),
        ("eth0", IpAddr.v6 "fe80")]).find?
      (fun q => q.2 == "10.0.0.1") = some ("eth0", "10.0.0.1") := by
  have h := c8_theorem ["eth0", "wlan0"]
    [("eth0", IpAddr.v4 "10.0.0.1"), ("wlan0", IpAddr.v4 "10.0.0.1"),
      ("wlan0", IpAddr.v4 "10.0.0.2"), ("lo", IpAddr.v4 "127.0.0.1"),
      ("eth0", IpAddr.v6 "fe80")] (fun _ => none)
  exact h.2.2.2.1 "eth0" "10.0.0.1" (by decide)

/-- Claim C9, amended: the snapshot is seeded with type-appropriate
defaults (empty strings, zero wattage, false AC, zero memory) before
any sample arrives, and the first rendered line then shows the
zero-padded `mem 00%` (the `{:02}` width-two format, not a bare `0%`),
an empty battery segment and an empty AC flag. -/
theorem c9_theorem :
    initSnapshot.bat0 = "" ∧ initSnapshot.bat1 = "" ∧
    initSnapshot.wattage = 0 ∧ initSnapshot.ac = false ∧
    initSnapshot.mem = 0 ∧
    pad2 initSnapshot.mem = "00" ∧
    format_battery_status initSnapshot.bat0 initSnapshot.bat1 = "" ∧
    acIndicator initSnapshot.ac = "" ∧
    statusLine "host" "user" "00" initSnapshot.mem "" initSnapshot.bat0
      initSnapshot.bat1 "0.0" initSnapshot.ac "2026-01-01 00:00:00" =
      "[host][user] => cpu 00%, mem 00%, net , pwr 0.0W, 2026-01-01 00:00:00"
    := by
  exact ⟨rfl, rfl, rfl, rfl, rfl, rfl, rfl, rfl, rfl⟩

/-- Claim C9 counterexample: `{:02}` zero-pads the default memory
value, so the first rendered line contains `mem 00%` and not the
claimed `mem 0%`. -/
theorem c9_counterexample :
    strHasSub "mem 0%"
      (statusLine "host" "user" "00" initSnapshot.mem "" initSnapshot.bat0
        initSnapshot.bat1 "0.0" initSnapshot.ac "2026-01-01 00:00:00")
      = false ∧
    strHasSub "mem 00%"
      (statusLine "host" "user" "00" initSnapshot.mem "" initSnapshot.bat0
        initSnapshot.bat1 "0.0" initSnapshot.ac "2026-01-01 00:00:00")
      = true := by
  exact ⟨by decide, by decide⟩

/-- Claim C10, amended: the hostname (and the pid needed for the user
lookup) are resolved at startup by retry-until-success loops — with
enough fuel the loop returns the first successful attempt; the
username, however, is resolved by a single attempt: the `--username`
override if given, otherwise one process/user-list lookup whose every
failure branch yields the empty string immediately, with no retry.
Both are then held in immutable bindings for the process lifetime. -/
theorem c10_theorem : ∀ (oracle : Nat → Option String) (k fuel : Nat)
    (v : String) (p : Option (Option Nat)) (users : List (Nat × String))
    (u : String) (uid : Nat),
    ((∀ m, m < k → oracle m = none) → oracle k = some v → k < fuel →
      retryLoop oracle fuel = some v) ∧
    resolveUsername (some u) p users = u ∧
    resolveUsername none none users = "" ∧
    resolveUsername none (some none) users = "" ∧
    resolveUsername none (some (some uid)) users =
      (match users.find? (fun w => w.1 == uid) with
        | some w => w.2
        | none => "") := by
  intro oracle k fuel v p users u uid
  exact ⟨fun h1 h2 h3 => retryLoop_first_success k oracle v h1 h2 fuel h3,
    rfl, rfl, rfl, rfl⟩

/-- Witness for claim C10's theorem at a concrete input: the hostname
loop returns the first successful attempt (the third). -/
theorem c10_witness :
    retryLoop (fun n => if n = 2 then some "myhost" else none) 4
      = some "myhost" := by
  exact (c10_theorem (fun n => if n = 2 then some "myhost" else none) 2 4
    "myhost" none [] "" 0).1 (by decide) (by decide) (by decide)

/-- Claim C10 counterexample: username resolution is one attempt with
an empty-string fallback, not retry-until-success — with no override
and a failed process lookup (or an empty user list) it immediately
returns `""`. -/
theorem c10_counterexample :
    resolveUsername none none [] = "" ∧
    resolveUsername none (some (some 0)) [] = "" := by
  exact ⟨rfl, rfl⟩
